import Mathlib

/-
Verification of the AI-Audiobook-Maker resilient generation pipeline.

The definitions below are shallow embeddings of the Python source:
  * src/src/utils/text_processing.py   (count_tokens, chunk_text_smartly)
  * src/src/tts/generator.py           (TTSGenerator chunk-limit ladder and
                                        chapter-level server-error handling)
  * src/rate_limiter.py                (SmartRateLimiter, QuotaAwareRetryHandler)
  * src/release-packages/.../api_retry_handler.py (APIRetryHandler)
  * src/resources/audio_quality_detector.py (corruption rule aggregation)

Text is modelled as `List Char` (Python strings are sequences of code
points).  Whitespace is modelled as the ASCII whitespace class used by
`str.split` / `str.strip` / regex `\s` on the ASCII inputs the chunker
manipulates.  Times are modelled as rationals, and the two Python clocks
(`time.time()` and `datetime.now()`) are modelled by a single time line.
The token estimator is embedded twice: `count_tokens_with_tokenizer`
models the full source function, with the module-global tokenizer (the
external tiktoken encoder) as an explicit parameter, and `count_tokens`
is its tokenizer-free instance (the `tiktoken is None` configuration,
which the module explicitly supports and which
`SmartRateLimiter.estimate_tokens` always uses); the chunker is analysed
under that instance, and its claims are estimator-independent.
-/

/-- Python whitespace characters (ASCII class): space, tab, LF, CR, VT, FF. -/
def pyIsSpace (c : Char) : Bool :=
  c = ' ' || c = '\t' || c = '\n' || c = '\x0d' || c = '\x0b' || c = '\x0c'

/-- The non-whitespace characters of a string, in order.  Concatenation of the
chunker output is compared with the input through this projection. -/
def nws (s : List Char) : List Char :=
  s.filter (fun c => !pyIsSpace c)

/-- Concatenation of the non-whitespace content of a list of strings. -/
def nwsJoin (l : List (List Char)) : List Char :=
  (l.map nws).flatten

/-- count_tokens (text_processing.py lines 28-46) in full generality.  The
module-global `tokenizer` is `none` when tiktoken is unavailable or failed
to initialise (lines 11-25) and `some enc` when available; `enc s = some ts`
models `tokenizer.encode(text)` returning the token list `ts` (line 43),
and `enc s = none` models the encoder raising, in which case the rough
estimate is used (lines 44-46).  With no tokenizer the fallback
`max(1, len(text) // 4)` is returned (lines 38-40). -/
def count_tokens_with_tokenizer
    (tokenizer : Option (List Char → Option (List Nat))) (s : List Char) : Nat :=
  match tokenizer with
  | none => max 1 (s.length / 4)
  | some enc =>
    match enc s with
    | some ts => ts.length
    | none => max 1 (s.length / 4)

/-- count_tokens in the tokenizer-free configuration,
`count_tokens_with_tokenizer none`: the fallback `max(1, len(text) // 4)`.
The chunker below is analysed under this instance; its properties proved
here (C1, C2, C4) do not depend on which estimator is plugged in. -/
def count_tokens (s : List Char) : Nat :=
  max 1 (s.length / 4)

/-- Stand-in for tiktoken's cl100k_base `encode`, an external library that
is not part of this repository: one token id per four characters, rounded
up.  The only property of the real encoder that the analysis relies on is
that the empty string encodes to the empty token list, which holds for the
real tokenizer and for this stand-in. -/
def cl100kEncodeModel (s : List Char) : Option (List Nat) :=
  some (List.replicate ((s.length + 3) / 4) 0)

/-- SmartRateLimiter.estimate_tokens (rate_limiter.py line 43):
`max(1, len(text) // 4)`, unconditionally — this class never consults a
tokenizer. -/
def estimate_tokens (s : List Char) : Nat :=
  max 1 (s.length / 4)

/-- Python `text.split('\n\n')`: split on each non-overlapping occurrence of
the two-character separator, scanning left to right, keeping empty pieces. -/
def splitPara : List Char → List (List Char)
  | [] => [[]]
  | '\n' :: '\n' :: rest => [] :: splitPara rest
  | c :: rest =>
    match splitPara rest with
    | [] => [[c]]
    | s :: ss => (c :: s) :: ss

/-- Sentence-terminating punctuation of the regex `(?<=[.!?])`. -/
def isPunct (c : Char) : Bool :=
  c = '.' || c = '!' || c = '?'

mutual
/-- Python `re.split(r'(?<=[.!?])\s+', s)`: a maximal whitespace run whose
first character is immediately preceded by `.`, `!` or `?` separates two
sentences.  The Boolean argument records whether the previous character of
the original string was such punctuation. -/
def splitSentAux : Bool → List Char → List (List Char)
  | _, [] => [[]]
  | p, c :: rest =>
    if p && pyIsSpace c then [] :: skipSentSpaces rest
    else
      match splitSentAux (isPunct c) rest with
      | [] => [[c]]
      | s :: ss => (c :: s) :: ss

/-- Consume the remainder of a separator whitespace run, then resume
`splitSentAux`; the character before the resumed position is whitespace,
so the lookbehind flag restarts as `false`. -/
def skipSentSpaces : List Char → List (List Char)
  | [] => [[]]
  | c :: rest =>
    if pyIsSpace c then skipSentSpaces rest
    else
      match splitSentAux (isPunct c) rest with
      | [] => [[c]]
      | s :: ss => (c :: s) :: ss
end

/-- Sentence split of a paragraph (text_processing.py line 88). -/
def splitSent (s : List Char) : List (List Char) :=
  splitSentAux false s

/-- Accumulator worker for Python `s.split()` (split on whitespace runs,
dropping empty pieces). -/
def pyWordsAux : List Char → List Char → List (List Char)
  | acc, [] => if acc = [] then [] else [acc.reverse]
  | acc, c :: rest =>
    if pyIsSpace c then
      if acc = [] then pyWordsAux [] rest else acc.reverse :: pyWordsAux [] rest
    else pyWordsAux (c :: acc) rest

/-- Python `s.split()`. -/
def pyWords (s : List Char) : List (List Char) :=
  pyWordsAux [] s

/-- Python `s.strip()`: remove leading and trailing whitespace. -/
def pyStrip (s : List Char) : List Char :=
  ((s.dropWhile pyIsSpace).reverse.dropWhile pyIsSpace).reverse

/-- Character-level packing loop of chunk_text_smartly
(text_processing.py lines 125-138): state is (chunks, char_chunk). -/
def charStep (maxTokens : Nat) (st : List (List Char) × List Char) (c : Char) :
    List (List Char) × List Char :=
  let test := st.2 ++ [c]
  if count_tokens test ≤ maxTokens then (st.1, test)
  else if st.2 ≠ [] then (st.1 ++ [st.2], [c])
  else (st.1 ++ [[c]], st.2)

/-- Word-level packing step (text_processing.py lines 112-140): state is
(chunks, word_chunk). -/
def wordStep (maxTokens : Nat) (st : List (List Char) × List Char) (w : List Char) :
    List (List Char) × List Char :=
  let test := st.2 ++ (if st.2 = [] then [] else [' ']) ++ w
  if count_tokens test ≤ maxTokens then (st.1, test)
  else if st.2 ≠ [] then (st.1 ++ [pyStrip st.2], w)
  else if count_tokens w > maxTokens then w.foldl (charStep maxTokens) (st.1, [])
  else (st.1, w)

/-- Word-level packing of an oversized sentence (lines 108-143); returns the
updated chunk list and the final word_chunk, which becomes temp_chunk. -/
def wordLoop (maxTokens : Nat) (chunks : List (List Char)) (s : List Char) :
    List (List Char) × List Char :=
  (pyWords s).foldl (wordStep maxTokens) (chunks, [])

/-- Sentence-level packing step (lines 91-143); `rc` is the recursive
invocation `chunk_text_smartly` at the same budget.  State is
(chunks, temp_chunk). -/
def sentStep (maxTokens : Nat) (rc : List Char → List (List Char))
    (st : List (List Char) × List Char) (sent : List Char) :
    List (List Char) × List Char :=
  let test := st.2 ++ (if st.2 = [] then [] else [' ']) ++ sent
  if count_tokens test ≤ maxTokens then (st.1, test)
  else if st.2 ≠ [] then
    if count_tokens sent > maxTokens then (st.1 ++ [pyStrip st.2] ++ rc sent, [])
    else (st.1 ++ [pyStrip st.2], sent)
  else wordLoop maxTokens st.1 sent

/-- Paragraph-level packing step (lines 66-146); state is
(chunks, current_chunk). -/
def paraStep (maxTokens : Nat) (rc : List Char → List (List Char))
    (st : List (List Char) × List Char) (para : List Char) :
    List (List Char) × List Char :=
  let test := st.2 ++ (if st.2 = [] then [] else ['\n', '\n']) ++ para
  if count_tokens test ≤ maxTokens then (st.1, test)
  else if st.2 ≠ [] then
    if count_tokens para > maxTokens then (st.1 ++ [pyStrip st.2] ++ rc para, [])
    else (st.1 ++ [pyStrip st.2], para)
  else (splitSent para).foldl (sentStep maxTokens rc) (st.1, [])

/-- One step of the emergency word-granularity re-split inside the final
verification pass (lines 163-172). -/
def emergStep (maxTokens : Nat) (st : List (List Char) × List Char) (w : List Char) :
    List (List Char) × List Char :=
  let test := st.2 ++ (if st.2 = [] then [] else [' ']) ++ w
  if count_tokens test ≤ maxTokens then (st.1, test)
  else if st.2 ≠ [] then (st.1 ++ [pyStrip st.2], w)
  else (st.1, w)

/-- Final verification pass over one produced chunk (lines 158-176). -/
def verifyStep (maxTokens : Nat) (ver : List (List Char)) (chunk : List Char) :
    List (List Char) :=
  if pyStrip chunk ≠ [] then
    if count_tokens chunk > maxTokens then
      let r := (pyWords chunk).foldl (emergStep maxTokens) (ver, [])
      if r.2 ≠ [] then r.1 ++ [pyStrip r.2] else r.1
    else ver ++ [pyStrip chunk]
  else ver

/-- Flush of the last current_chunk after the paragraph loop
(text_processing.py lines 148-155), including the final safety re-split of
an oversized leftover. -/
def finalizeCurrent (maxTokens : Nat) (rc : List Char → List (List Char))
    (st : List (List Char) × List Char) : List (List Char) :=
  if st.2 ≠ [] then
    if count_tokens st.2 > maxTokens then st.1 ++ rc st.2
    else st.1 ++ [pyStrip st.2]
  else st.1

/-- chunk_text_smartly (text_processing.py lines 49-178), with an explicit
fuel bound on the recursion depth.  Every recursive call in the source is on
a strict substring of the input (a paragraph, sentence or word that was
preceded by other content), so depth is bounded by the input length and the
fuel branch is unreachable at the fuel supplied by `chunk_text_smartly`. -/
def chunkAux : Nat → List Char → Nat → List (List Char)
  | 0, text, _ => [text]
  | fuel + 1, text, maxTokens =>
    (finalizeCurrent maxTokens (fun t => chunkAux fuel t maxTokens)
        ((splitPara text).foldl
          (paraStep maxTokens (fun t => chunkAux fuel t maxTokens)) ([], []))).foldl
      (verifyStep maxTokens) []

/-- chunk_text_smartly: split text into chunks intended to stay under the
token limit, breaking at natural boundaries. -/
def chunk_text_smartly (text : List Char) (maxTokens : Nat) : List (List Char) :=
  chunkAux (text.length + 1) text maxTokens

/-
TTSGenerator chunk-limit ladder (src/src/tts/generator.py).
-/

/-- The hard-coded reduction ladder (generator.py line 63). -/
def chunkReductionSteps : List Nat := [25000, 20000, 15000, 10000, 5000]

/-- The mutable part of TTSGenerator relevant to the token budget:
current_chunk_limit and chunk_step_index (generator.py lines 62-64). -/
structure GenState where
  limit : Nat
  stepIdx : Nat
  deriving DecidableEq, Repr

/-- TTSGenerator.__init__: the budget starts at the configured chunk_limit
with step index 0 (generator.py lines 62-64). -/
def initGenState (chunkLimit : Nat) : GenState :=
  { limit := chunkLimit, stepIdx := 0 }

/-- TTSGenerator.reduce_chunk_limit (generator.py lines 78-86): move the
budget to the next ladder value and report success, or report failure
leaving the state unchanged once the ladder is exhausted. -/
def reduce_chunk_limit (s : GenState) : GenState × Bool :=
  if s.stepIdx < chunkReductionSteps.length then
    ({ limit := chunkReductionSteps.getD s.stepIdx 0, stepIdx := s.stepIdx + 1 }, true)
  else (s, false)

/-- State after n successive reduce_chunk_limit calls from the initial state. -/
def iterReduce (chunkLimit : Nat) : Nat → GenState
  | 0 => initGenState chunkLimit
  | n + 1 => (reduce_chunk_limit (iterReduce chunkLimit n)).1

/-- The chapter-level server-error recovery branch of generate_chapter_audio
(generator.py lines 433-456), entered when a MaxRetriesExceededError or
HTTPAPIError whose message matches 500/502/timeout reaches the chunk loop
while chunk `i` is being processed.  Returns the new generator state, the
spliced chunk list and the index at which processing resumes, or `none`
when the ladder is exhausted and the error is re-raised. -/
def handleServerError (safeMode : Bool) (safeLimit : Nat) (s : GenState)
    (chunks : List (List Char)) (i : Nat) :
    Option (GenState × List (List Char) × Nat) :=
  match reduce_chunk_limit s with
  | (s2, true) =>
    let eff := if safeMode then min s2.limit safeLimit else s2.limit
    let sub := chunk_text_smartly (chunks.getD i []) eff
    some (s2, chunks.take i ++ sub ++ chunks.drop (i + 1), i)
  | (_, false) => none

/-
Retry handlers: QuotaAwareRetryHandler.call_with_quota_awareness
(src/rate_limiter.py lines 169-250) and APIRetryHandler.call_with_retry
(release-packages api_retry_handler.py lines 51-115).  One provider call is
made per loop iteration; its outcome is drawn from an oracle indexed by the
attempt number.
-/

/-- Outcome of one provider call: success, an HTTP-like failure carrying a
status code, a network-level failure (requests ConnectionError/Timeout), or
any other exception without HTTP status. -/
inductive Outcome where
  | success
  | http (code : Nat)
  | network
  | other
  deriving DecidableEq, Repr

/-- How a retry loop terminates, mirroring the exception classes of the
source: normal return, QuotaExhaustedError, ServiceUnavailableError,
MaxRetriesExceededError, HTTPAPIError, or a bare re-raise of the last
error. -/
inductive RetryResult where
  | ok
  | quotaExhausted
  | serviceUnavailable
  | maxRetriesExceeded
  | httpError (code : Nat)
  | raised (o : Outcome)
  deriving DecidableEq, Repr

/-- The `for attempt in range(max_retries + 1)` loop of
call_with_quota_awareness (rate_limiter.py lines 180-250).  `left` counts
the loop iterations still available (initially `maxRetries + 1`); the pair
returned is the terminal result and the number of provider calls made.  In
the quota-aware handler a network error has no usable `response.status_code`
and is handled by the generic non-HTTP branch, like `other`. -/
def quotaGo (outcomes : Nat → Outcome) (maxRetries : Nat) :
    Nat → Nat → RetryResult × Nat
  | attempt, 0 => (.raised (outcomes (attempt - 1)), 0)
  | attempt, left + 1 =>
    match outcomes attempt with
    | .success => (.ok, 1)
    | .http 429 =>
      if attempt < maxRetries then
        let r := quotaGo outcomes maxRetries (attempt + 1) left
        (r.1, r.2 + 1)
      else (.quotaExhausted, 1)
    | .http 503 => (.serviceUnavailable, 1)
    | .http 500 =>
      if attempt < maxRetries then
        let r := quotaGo outcomes maxRetries (attempt + 1) left
        (r.1, r.2 + 1)
      else (.maxRetriesExceeded, 1)
    | .http 502 =>
      if attempt < maxRetries then
        let r := quotaGo outcomes maxRetries (attempt + 1) left
        (r.1, r.2 + 1)
      else (.maxRetriesExceeded, 1)
    | .http c => (.httpError c, 1)
    | .network =>
      if attempt < maxRetries then
        let r := quotaGo outcomes maxRetries (attempt + 1) left
        (r.1, r.2 + 1)
      else (.raised .network, 1)
    | .other =>
      if attempt < maxRetries then
        let r := quotaGo outcomes maxRetries (attempt + 1) left
        (r.1, r.2 + 1)
      else (.raised .other, 1)

/-- QuotaAwareRetryHandler.call_with_quota_awareness, returning the terminal
result together with the number of provider calls made. -/
def call_with_quota_awareness (outcomes : Nat → Outcome) (maxRetries : Nat) :
    RetryResult × Nat :=
  quotaGo outcomes maxRetries 0 (maxRetries + 1)

/-- The `for attempt in range(self.max_retries + 1)` loop of
APIRetryHandler.call_with_retry (api_retry_handler.py lines 55-115).  Only
500 is backed off and retried; 503 raises ServiceUnavailableError at once;
any other status >= 400 raises HTTPAPIError; a status below 400 falls
through the except clause to the next iteration; network errors are
retried; other exceptions hit `should_retry`, which rejects them, and are
re-raised.  After the loop the last error is re-raised. -/
def retryGo (outcomes : Nat → Outcome) (maxRetries : Nat) :
    Nat → Nat → RetryResult × Nat
  | attempt, 0 => (.raised (outcomes (attempt - 1)), 0)
  | attempt, left + 1 =>
    match outcomes attempt with
    | .success => (.ok, 1)
    | .http 503 => (.serviceUnavailable, 1)
    | .http 500 =>
      if attempt < maxRetries then
        let r := retryGo outcomes maxRetries (attempt + 1) left
        (r.1, r.2 + 1)
      else (.maxRetriesExceeded, 1)
    | .http c =>
      if 400 ≤ c then (.httpError c, 1)
      else
        let r := retryGo outcomes maxRetries (attempt + 1) left
        (r.1, r.2 + 1)
    | .network =>
      if attempt < maxRetries then
        let r := retryGo outcomes maxRetries (attempt + 1) left
        (r.1, r.2 + 1)
      else (.maxRetriesExceeded, 1)
    | .other => (.raised .other, 1)

/-- APIRetryHandler.call_with_retry, returning the terminal result together
with the number of provider calls made. -/
def call_with_retry (outcomes : Nat → Outcome) (maxRetries : Nat) :
    RetryResult × Nat :=
  retryGo outcomes maxRetries 0 (maxRetries + 1)

/-
SmartRateLimiter (src/rate_limiter.py lines 15-103).
-/

/-- RateLimit dataclass (rate_limiter.py lines 15-26). -/
structure RateLimit where
  requestsPerMinute : Nat
  tokensPerMinute : Nat
  currentRequests : Nat
  currentTokens : Nat
  windowStart : ℚ
  deriving DecidableEq, Repr

/-- The single model key pre-configured in SmartRateLimiter.__init__. -/
def geminiKey : String := "gemini-2.5-pro-preview-tts"

/-- SmartRateLimiter state: the rate_limits dict and last_request_time
(rate_limiter.py lines 31-41).  min_request_interval is the constant 4.0. -/
structure SmartRateLimiter where
  rateLimits : String → Option RateLimit
  lastRequestTime : ℚ
  minRequestInterval : ℚ

/-- SmartRateLimiter.__init__ at construction time `t0`: one hard-coded
window for the Gemini TTS key (15 requests/minute, 10000 tokens/minute,
window_start = now), no window for any other key, last_request_time = 0,
min_request_interval = 4. -/
def initLimiter (t0 : ℚ) : SmartRateLimiter :=
  { rateLimits := fun m =>
      if m = geminiKey then
        some { requestsPerMinute := 15, tokensPerMinute := 10000,
               currentRequests := 0, currentTokens := 0, windowStart := t0 }
      else none
    lastRequestTime := 0
    minRequestInterval := 4 }

/-- SmartRateLimiter.reset_window_if_needed (lines 49-58): zero the counters
and restart the window only when at least one minute has elapsed. -/
def reset_window_if_needed (now : ℚ) (model : String) (L : SmartRateLimiter) :
    SmartRateLimiter :=
  match L.rateLimits model with
  | none => L
  | some w =>
    if 60 ≤ now - w.windowStart then
      { L with rateLimits := fun m =>
          if m = model then
            some { w with currentRequests := 0, currentTokens := 0, windowStart := now }
          else L.rateLimits m }
    else L

/-- SmartRateLimiter.can_make_request (lines 60-90): returns the (possibly
window-reset) state together with (can_proceed, wait_time).  A key with no
window is admitted immediately; otherwise the minimum inter-request
interval is enforced first, then the per-minute request and token budget. -/
def can_make_request (now : ℚ) (model : String) (estimatedTokens : Nat)
    (L : SmartRateLimiter) : SmartRateLimiter × Bool × ℚ :=
  let L2 := reset_window_if_needed now model L
  match L2.rateLimits model with
  | none => (L2, true, 0)
  | some w =>
    if now - L2.lastRequestTime < L2.minRequestInterval then
      (L2, false, L2.minRequestInterval - (now - L2.lastRequestTime))
    else if w.requestsPerMinute ≤ w.currentRequests ∨
        w.tokensPerMinute < w.currentTokens + estimatedTokens then
      (L2, false, max 0 (60 - (now - w.windowStart)))
    else (L2, true, 0)

/-- SmartRateLimiter.record_request (lines 92-103): on a key with a window,
bump the request count, add the actual tokens and stamp
last_request_time; a key without a window is a no-op. -/
def record_request (now : ℚ) (model : String) (actualTokens : Nat)
    (L : SmartRateLimiter) : SmartRateLimiter :=
  match L.rateLimits model with
  | none => L
  | some w =>
    { L with
      rateLimits := fun m =>
        if m = model then
          some { w with currentRequests := w.currentRequests + 1,
                        currentTokens := w.currentTokens + actualTokens }
        else L.rateLimits m
      lastRequestTime := now }

/-- A sequence of successful requests recorded at the given times, each with
`k` actual tokens, for the given model key. -/
def recordAll (model : String) (k : Nat) (times : List ℚ) (L : SmartRateLimiter) :
    SmartRateLimiter :=
  times.foldl (fun acc t => record_request t model k acc) L

/-
AudioQualityDetector corruption classification
(src/resources/audio_quality_detector.py lines 759-942).  The twelve
heuristic rules read scalar quality metrics and the outcomes of the
signal-level sub-detectors; those sub-detector outcomes (silence segments,
volume spikes, speed/reverse/gibberish scores) are inputs of the rule
layer here, so the embedding covers exactly the aggregation logic the
claims are about.
-/

/-- CorruptionType enum (audio_quality_detector.py lines 74-88). -/
inductive CorruptionType where
  | suddenCutoff
  | excessiveSilence
  | staticNoise
  | volumeSpike
  | clipping
  | frequencyAnomaly
  | digitalArtifacts
  | lowQuality
  | incompleteGeneration
  | speedDistortion
  | reverseSpeech
  | gibberishArtifacts
  deriving DecidableEq, Repr

/-- The scalar fields of QualityMetrics consumed by the corruption rules
(lines 91-107), as exact rationals. -/
structure QualityMetrics where
  duration : ℚ
  silencePercentage : ℚ
  highFreqEnergy : ℚ
  zeroCrossingRate : ℚ
  clippingPercentage : ℚ
  snrEstimate : ℚ
  spectralFlatness : ℚ
  harmonicNoiseRatio : ℚ
  peakAmplitude : ℚ
  dynamicRange : ℚ
  deriving DecidableEq, Repr

/-- Everything _analyze_corruption_patterns reads besides the metrics: the
detected silence segments (start, end), the detected volume spikes, and the
(flag, confidence) results of the speed / reverse / gibberish
sub-detectors. -/
structure AnalysisInputs where
  metrics : QualityMetrics
  silenceSegments : List (ℚ × ℚ)
  volumeSpikes : List ℚ
  speedDistortion : Bool × ℚ
  reverseSpeech : Bool × ℚ
  gibberish : Bool × ℚ
  deriving DecidableEq, Repr

/-- Detector thresholds (AudioQualityDetector.__init__ lines 127-150). -/
structure DetectorConfig where
  minSpeechDuration : ℚ
  maxSilenceDuration : ℚ
  corruptionConfidenceThreshold : ℚ
  deriving DecidableEq, Repr

/-- The constructor defaults: min_speech_duration 1.0 s,
max_silence_duration 3.0 s, corruption_confidence_threshold 0.7. -/
def defaultDetectorConfig : DetectorConfig :=
  { minSpeechDuration := 1, maxSilenceDuration := 3,
    corruptionConfidenceThreshold := 7 / 10 }

/-- Append a corruption type and its confidence score when the rule fires
(the `corruption_types.append` / `confidence_scores.append` pattern). -/
def addIf (b : Prop) [Decidable b] (t : CorruptionType) (score : ℚ)
    (acc : List CorruptionType × List ℚ) : List CorruptionType × List ℚ :=
  if b then (acc.1 ++ [t], acc.2 ++ [score]) else acc

/-- _analyze_corruption_patterns (lines 759-866): the twelve rules applied
in source order, producing the detected corruption types and the firing
rules' confidence scores. -/
def analyzeCorruptionPatterns (cfg : DetectorConfig) (inp : AnalysisInputs) :
    List CorruptionType × List ℚ :=
  let m := inp.metrics
  let acc : List CorruptionType × List ℚ := ([], [])
  let acc := addIf (m.duration < cfg.minSpeechDuration)
    .incompleteGeneration (9 / 10) acc
  let acc := addIf (50 < m.silencePercentage) .excessiveSilence (8 / 10) acc
  let acc := addIf (inp.silenceSegments ≠ [] ∧
      m.duration - 1 / 10 ≤ (inp.silenceSegments.getLast!).2 ∧
      cfg.maxSilenceDuration <
        (inp.silenceSegments.getLast!).2 - (inp.silenceSegments.getLast!).1)
    .suddenCutoff (9 / 10) acc
  let acc := addIf (1 < m.clippingPercentage) .clipping (8 / 10) acc
  let acc := addIf (9 / 10 < m.peakAmplitude ∧ 50 < m.dynamicRange ∧
      inp.volumeSpikes ≠ []) .volumeSpike (85 / 100) acc
  let acc := addIf (3 / 10 < m.highFreqEnergy) .staticNoise (7 / 10) acc
  let acc := addIf (8 / 10 < m.spectralFlatness) .frequencyAnomaly (6 / 10) acc
  let acc := addIf (m.snrEstimate < 10) .lowQuality (7 / 10) acc
  let acc := addIf (1 / 2 < m.zeroCrossingRate) .digitalArtifacts (6 / 10) acc
  let acc := addIf (m.harmonicNoiseRatio < 5 ∧ CorruptionType.lowQuality ∉ acc.1)
    .lowQuality (6 / 10) acc
  let acc := addIf (inp.speedDistortion.1 ∧ 1 / 2 < inp.speedDistortion.2)
    .speedDistortion inp.speedDistortion.2 acc
  let acc := addIf (inp.reverseSpeech.1 ∧ 1 / 2 < inp.reverseSpeech.2)
    .reverseSpeech inp.reverseSpeech.2 acc
  let acc := addIf (inp.gibberish.1 ∧ 1 / 2 < inp.gibberish.2)
    .gibberishArtifacts inp.gibberish.2 acc
  acc

/-- Overall confidence (lines 860-864): the mean of the firing rules'
scores, or 0.0 when no rule fired. -/
def overallConfidence (scores : List ℚ) : ℚ :=
  if scores = [] then 0 else scores.sum / scores.length

/-- The part of a CorruptionReport the pipeline consumes. -/
structure CorruptionReport where
  isCorrupted : Bool
  corruptionTypes : List CorruptionType
  confidenceScore : ℚ
  deriving DecidableEq, Repr

/-- AudioQualityDetector.detect_corruption (lines 868-942): on a successful
analysis, corrupted iff some rule fired and the mean confidence is at least
the threshold (line 895); if the analysis itself throws, assume corrupted
(lines 931-942: is_corrupted = True, DIGITAL_ARTIFACTS, confidence 0.5). -/
def detect_corruption (cfg : DetectorConfig)
    (analysis : Except String AnalysisInputs) : CorruptionReport :=
  match analysis with
  | .ok inp =>
    let r := analyzeCorruptionPatterns cfg inp
    let confidence := overallConfidence r.2
    { isCorrupted := decide (r.1 ≠ [] ∧ cfg.corruptionConfidenceThreshold ≤ confidence)
      corruptionTypes := r.1
      confidenceScore := confidence }
  | .error _ =>
    { isCorrupted := true
      corruptionTypes := [.digitalArtifacts]
      confidenceScore := 1 / 2 }

/-- What TTSGenerator.generate_chunk_audio does with one freshly generated
chunk file (generator.py lines 184-257). -/
inductive ChunkDecision where
  | accept
  | regenerate
  deriving DecidableEq, Repr

/-- The quality-check call site in generate_chunk_audio: the corruption
check either raises or returns a Boolean.  A True result regenerates while
per-chunk retries remain (line 192) and is accepted with a warning
afterwards (lines 248-250); a False result is accepted (line 252); an
exception from the check itself is logged and the generated audio is kept
(lines 253-255). -/
def qualityCheckDecision (check : Except String Bool)
    (retryCount retryAttempts : Nat) : ChunkDecision :=
  match check with
  | .error _ => .accept
  | .ok true => if retryCount < retryAttempts then .regenerate else .accept
  | .ok false => .accept

/-
Helper lemmas: the non-whitespace projection through the splitting
primitives.
-/

@[simp]
theorem nws_nil : nws [] = [] := rfl

theorem nws_append (a b : List Char) : nws (a ++ b) = nws a ++ nws b := by
  simp [nws, List.filter_append]

theorem nws_cons (c : Char) (s : List Char) : nws (c :: s) = nws [c] ++ nws s := by
  simp only [nws, List.filter]
  cases h : !pyIsSpace c <;> simp [List.filter, h]

theorem nws_cons_space {c : Char} (h : pyIsSpace c = true) (s : List Char) :
    nws (c :: s) = nws s := by
  simp [nws, List.filter, h]

theorem nws_reverse (s : List Char) : nws s.reverse = (nws s).reverse := by
  simp [nws, List.filter_reverse]

theorem nws_dropWhile_space (s : List Char) :
    nws (s.dropWhile pyIsSpace) = nws s := by
  induction s with
  | nil => rfl
  | cons c rest ih =>
    by_cases h : pyIsSpace c = true
    · rw [List.dropWhile_cons_of_pos h, ih, nws_cons_space h]
    · rw [List.dropWhile_cons_of_neg h]

theorem nws_pyStrip (s : List Char) : nws (pyStrip s) = nws s := by
  unfold pyStrip
  rw [nws_reverse, nws_dropWhile_space, nws_reverse, List.reverse_reverse,
    nws_dropWhile_space]

@[simp]
theorem nwsJoin_nil : nwsJoin [] = [] := rfl

theorem nwsJoin_cons (x : List Char) (l : List (List Char)) :
    nwsJoin (x :: l) = nws x ++ nwsJoin l := by
  simp [nwsJoin]

theorem nwsJoin_append (a b : List (List Char)) :
    nwsJoin (a ++ b) = nwsJoin a ++ nwsJoin b := by
  simp [nwsJoin]

theorem nwsJoin_singleton (x : List Char) : nwsJoin [x] = nws x := by
  simp [nwsJoin]

theorem nwsJoin_splitPara (s : List Char) : nwsJoin (splitPara s) = nws s := by
  induction s using splitPara.induct with
  | case1 => rfl
  | case2 rest ih =>
    have he : splitPara ('\n' :: '\n' :: rest) = [] :: splitPara rest := rfl
    rw [he, nwsJoin_cons, ih, nws_cons_space (by decide), nws_cons_space (by decide)]
    rfl
  | case3 c rest h hp ih =>
    have he : splitPara (c :: rest) = [[c]] := by
      rw [splitPara.eq_def]
      split
      · rename_i heq; exact absurd heq (List.cons_ne_nil c rest)
      · rename_i rest1 heq
        injection heq with h1 h2
        exact (h rest1 h1 h2).elim
      · rename_i c2 rest2 hne heq
        injection heq with h1 h2
        subst h1; subst h2
        rw [hp]
    rw [hp] at ih
    rw [he, nwsJoin_singleton, nws_cons c rest, ← ih]
    simp [nwsJoin]
  | case4 c rest h s ss hp ih =>
    have he : splitPara (c :: rest) = (c :: s) :: ss := by
      rw [splitPara.eq_def]
      split
      · rename_i heq; exact absurd heq (List.cons_ne_nil c rest)
      · rename_i rest1 heq
        injection heq with h1 h2
        exact (h rest1 h1 h2).elim
      · rename_i c2 rest2 hne heq
        injection heq with h1 h2
        subst h1; subst h2
        rw [hp]
    rw [hp] at ih
    rw [he, nwsJoin_cons, nws_cons c s, List.append_assoc, ← nwsJoin_cons, ih,
      ← nws_cons]

theorem nwsJoin_splitSent_both (s : List Char) :
    (∀ p, nwsJoin (splitSentAux p s) = nws s) ∧
      nwsJoin (skipSentSpaces s) = nws s := by
  induction s with
  | nil =>
    constructor
    · intro p; rfl
    · rfl
  | cons c rest ih =>
    have hcons : ∀ q, nwsJoin
        (match splitSentAux q rest with
         | [] => [[c]]
         | s :: ss => (c :: s) :: ss) = nws (c :: rest) := by
      intro q
      cases hsp : splitSentAux q rest with
      | nil =>
        have := ih.1 q
        rw [hsp] at this
        rw [nws_cons c rest, ← this]
        simp [nwsJoin]
      | cons s ss =>
        have := ih.1 q
        rw [hsp] at this
        simp only []
        rw [nwsJoin_cons, nws_cons c s, List.append_assoc, ← nwsJoin_cons, this,
          ← nws_cons]
    constructor
    · intro p
      rw [splitSentAux]
      by_cases hb : (p && pyIsSpace c) = true
      · rw [if_pos hb, nwsJoin_cons, ih.2,
          nws_cons_space (by exact (Bool.and_eq_true _ _).mp hb |>.2)]
        rfl
      · rw [if_neg hb]
        exact hcons (isPunct c)
    · rw [skipSentSpaces]
      by_cases hb : pyIsSpace c = true
      · rw [if_pos hb, ih.2, nws_cons_space hb]
      · rw [if_neg hb]
        exact hcons (isPunct c)

theorem nwsJoin_splitSent (s : List Char) : nwsJoin (splitSent s) = nws s :=
  (nwsJoin_splitSent_both s).1 false

theorem nwsJoin_pyWordsAux (s acc : List Char) :
    nwsJoin (pyWordsAux acc s) = nws acc.reverse ++ nws s := by
  induction s generalizing acc with
  | nil =>
    rw [pyWordsAux]
    by_cases h : acc = []
    · subst h; rfl
    · rw [if_neg h, nwsJoin_singleton]
      simp [nws_nil]
  | cons c rest ih =>
    rw [pyWordsAux]
    by_cases hb : pyIsSpace c = true
    · rw [if_pos hb]
      by_cases h : acc = []
      · subst h
        rw [if_pos rfl, ih, nws_cons_space hb]
      · rw [if_neg h, nwsJoin_cons, ih []]
        rw [nws_cons_space hb]
        simp [nws_nil]
    · rw [if_neg hb, ih, List.reverse_cons, nws_append, nws_cons c rest]
      have : nws [c] = [c] := by
        simp [nws, List.filter, hb]
      rw [this]
      simp

theorem nwsJoin_pyWords (s : List Char) : nwsJoin (pyWords s) = nws s := by
  unfold pyWords
  rw [nwsJoin_pyWordsAux]
  rfl

/-- The invariant carried through every packing fold of the chunker: the
non-whitespace content of the emitted chunks plus the pending buffer. -/
def pendNws (st : List (List Char) × List Char) : List Char :=
  nwsJoin st.1 ++ nws st.2

theorem foldl_pendNws {α : Type} (f : (List (List Char) × List Char) → α →
      (List (List Char) × List Char)) (d : α → List Char)
    (hf : ∀ st x, pendNws (f st x) = pendNws st ++ d x) :
    ∀ (l : List α) st,
      pendNws (l.foldl f st) = pendNws st ++ (l.map d).flatten := by
  intro l
  induction l with
  | nil => intro st; simp
  | cons x xs ih =>
    intro st
    rw [List.foldl_cons, ih, hf]
    simp

theorem nws_single_nonspace {c : Char} (h : ¬pyIsSpace c = true) : nws [c] = [c] := by
  simp [nws, List.filter, h]

theorem flatten_map_nws_single (w : List Char) :
    (w.map (fun c => nws [c])).flatten = nws w := by
  induction w with
  | nil => rfl
  | cons c rest ih =>
    rw [List.map_cons, List.flatten_cons, ih, ← nws_cons]

theorem pendNws_mk (a : List (List Char)) (b : List Char) :
    pendNws (a, b) = nwsJoin a ++ nws b := rfl

theorem nws_cons_blank (s : List Char) : nws (' ' :: s) = nws s :=
  nws_cons_space (by decide) s

theorem nws_cons_newline (s : List Char) : nws ('\n' :: s) = nws s :=
  nws_cons_space (by decide) s

theorem pendNws_charStep (m : Nat) (st : List (List Char) × List Char) (c : Char) :
    pendNws (charStep m st c) = pendNws st ++ nws [c] := by
  obtain ⟨a, b⟩ := st
  simp only [charStep]
  split_ifs <;>
    simp_all [pendNws_mk, nwsJoin_append, nwsJoin_singleton, nws_append, nws_nil]

theorem pendNws_charFold (m : Nat) (a : List (List Char)) (w : List Char) :
    pendNws (w.foldl (charStep m) (a, [])) = nwsJoin a ++ nws w := by
  rw [foldl_pendNws (charStep m) (fun c => nws [c]) (pendNws_charStep m) w (a, [])]
  rw [flatten_map_nws_single]
  simp [pendNws_mk, nws_nil]

theorem pendNws_wordStep (m : Nat) (st : List (List Char) × List Char)
    (w : List Char) : pendNws (wordStep m st w) = pendNws st ++ nws w := by
  obtain ⟨a, b⟩ := st
  simp only [wordStep]
  split_ifs <;>
    simp_all [pendNws_mk, pendNws_charFold, nwsJoin_append, nwsJoin_singleton,
      nwsJoin_cons, nws_append, nws_nil, nws_pyStrip, nws_cons_blank]

theorem pendNws_wordLoop (m : Nat) (a : List (List Char)) (s : List Char) :
    pendNws (wordLoop m a s) = nwsJoin a ++ nws s := by
  unfold wordLoop
  rw [foldl_pendNws (wordStep m) nws (pendNws_wordStep m) (pyWords s) (a, [])]
  have h : ((pyWords s).map nws).flatten = nwsJoin (pyWords s) := rfl
  rw [h, nwsJoin_pyWords]
  simp [pendNws_mk, nws_nil]

theorem pendNws_sentStep (m : Nat) (rc : List Char → List (List Char))
    (hrc : ∀ t, nwsJoin (rc t) = nws t) (st : List (List Char) × List Char)
    (sent : List Char) :
    pendNws (sentStep m rc st sent) = pendNws st ++ nws sent := by
  obtain ⟨a, b⟩ := st
  simp only [sentStep]
  split_ifs <;>
    simp_all [pendNws_mk, pendNws_wordLoop, nwsJoin_append, nwsJoin_singleton,
      nwsJoin_cons, nws_append, nws_nil, nws_pyStrip, nws_cons_blank, hrc]

theorem pendNws_paraStep (m : Nat) (rc : List Char → List (List Char))
    (hrc : ∀ t, nwsJoin (rc t) = nws t) (st : List (List Char) × List Char)
    (para : List Char) :
    pendNws (paraStep m rc st para) = pendNws st ++ nws para := by
  obtain ⟨a, b⟩ := st
  have hsent : pendNws ((splitSent para).foldl (sentStep m rc) (a, []))
      = nwsJoin a ++ nws para := by
    rw [foldl_pendNws (sentStep m rc) nws (pendNws_sentStep m rc hrc)
      (splitSent para) (a, [])]
    have h : ((splitSent para).map nws).flatten = nwsJoin (splitSent para) := rfl
    rw [h, nwsJoin_splitSent]
    simp [pendNws_mk, nws_nil]
  simp only [paraStep]
  split_ifs <;>
    simp_all [pendNws_mk, nwsJoin_append, nwsJoin_singleton, nwsJoin_cons,
      nws_append, nws_nil, nws_pyStrip, nws_cons_newline, hrc]

theorem pendNws_emergStep (m : Nat) (st : List (List Char) × List Char)
    (w : List Char) : pendNws (emergStep m st w) = pendNws st ++ nws w := by
  obtain ⟨a, b⟩ := st
  simp only [emergStep]
  split_ifs <;>
    simp_all [pendNws_mk, nwsJoin_append, nwsJoin_singleton, nwsJoin_cons,
      nws_append, nws_nil, nws_pyStrip, nws_cons_blank]

theorem pendNws_emergFold (m : Nat) (acc : List (List Char)) (chunk : List Char) :
    pendNws ((pyWords chunk).foldl (emergStep m) (acc, []))
      = nwsJoin acc ++ nws chunk := by
  rw [foldl_pendNws (emergStep m) nws (pendNws_emergStep m) (pyWords chunk)
    (acc, [])]
  have h : ((pyWords chunk).map nws).flatten = nwsJoin (pyWords chunk) := rfl
  rw [h, nwsJoin_pyWords]
  simp [pendNws_mk, nws_nil]

theorem nwsJoin_verifyStep (m : Nat) (acc : List (List Char)) (chunk : List Char) :
    nwsJoin (verifyStep m acc chunk) = nwsJoin acc ++ nws chunk := by
  have hstrip : pyStrip chunk = [] → nws chunk = [] := by
    intro h
    rw [← nws_pyStrip chunk, h, nws_nil]
  have hr := pendNws_emergFold m acc chunk
  unfold pendNws at hr
  simp only [verifyStep]
  split_ifs with h1 h2 h3 <;>
    simp_all [nwsJoin_append, nwsJoin_singleton, nwsJoin_cons, nws_pyStrip]

theorem nwsJoin_verifyFold (m : Nat) (chunks acc : List (List Char)) :
    nwsJoin (chunks.foldl (verifyStep m) acc) = nwsJoin acc ++ nwsJoin chunks := by
  induction chunks generalizing acc with
  | nil => simp [nwsJoin_nil]
  | cons x xs ih =>
    rw [List.foldl_cons, ih, nwsJoin_verifyStep, nwsJoin_cons, List.append_assoc]

theorem nwsJoin_finalizeCurrent (m : Nat) (rc : List Char → List (List Char))
    (hrc : ∀ t, nwsJoin (rc t) = nws t) (st : List (List Char) × List Char) :
    nwsJoin (finalizeCurrent m rc st) = pendNws st := by
  obtain ⟨a, b⟩ := st
  simp only [finalizeCurrent]
  split_ifs <;>
    simp_all [pendNws_mk, nwsJoin_append, nwsJoin_singleton, nwsJoin_cons,
      nws_pyStrip, nws_nil, hrc]

theorem nwsJoin_chunkAux (m : Nat) : ∀ (fuel : Nat) (t : List Char),
    nwsJoin (chunkAux fuel t m) = nws t := by
  intro fuel
  induction fuel with
  | zero => intro t; simp [chunkAux, nwsJoin_singleton]
  | succ fuel ih =>
    intro t
    rw [chunkAux, nwsJoin_verifyFold, nwsJoin_finalizeCurrent m _ ih]
    rw [foldl_pendNws (paraStep m _) nws (pendNws_paraStep m _ ih) (splitPara t)
      ([], [])]
    have h : ((splitPara t).map nws).flatten = nwsJoin (splitPara t) := rfl
    rw [h, nwsJoin_splitPara]
    simp [pendNws_mk, nwsJoin_nil, nws_nil]

/-
Claim theorems: the text chunker (C1, C2) and the token estimator (C10).
-/

/-- C2: for every input text and every token budget, concatenating the
chunks returned by chunk_text_smartly and ignoring all whitespace (the
separators the chunker inserts and strips are whitespace) reproduces the
input text up to whitespace normalization: the non-whitespace characters
are exactly those of the input, in order — none lost, duplicated or
reordered. -/
theorem c2_chunk_concat_preserves_text (t : List Char) (b : Nat) :
    nwsJoin (chunk_text_smartly t b) = nws t := by
  unfold chunk_text_smartly
  exact nwsJoin_chunkAux b (t.length + 1) t

/-- C1 is false of the code: the final verification pass of
chunk_text_smartly re-splits an oversized chunk at word granularity only,
so a single word whose estimate exceeds the budget is emitted as-is.  At
budget 1, the input "aa aaaaaaaa aa" produces the chunk "aaaaaaaa" whose
token estimate is 2 > 1, even though the code comments promise to
"guarantee no chunk exceeds limit" with "emergency character-level
splitting".  This theorem evaluates the embedded chunker at that failing
input. -/
theorem c1_verification_pass_emits_oversized_chunk :
    chunk_text_smartly ("aa aaaaaaaa aa".data) 1
        = ["aa".data, "aaaaaaaa".data, "aa".data] ∧
      (chunk_text_smartly ("aa aaaaaaaa aa".data) 1).any
        (fun c => decide (1 < count_tokens c)) = true := by
  constructor
  · rfl
  · rfl

/-- C10 is falsified in the tokenizer-available configuration: there
count_tokens returns the raw encoding length (text_processing.py line 43),
and the empty string encodes to the empty token list, so
count_tokens("") = 0 — the estimator does return 0.  Evaluated at the
cl100k stand-in encoder, which agrees with the real tokenizer on the empty
string. -/
theorem c10_tokenizer_empty_counterexample :
    count_tokens_with_tokenizer (some cl100kEncodeModel) [] = 0 ∧
      ¬1 ≤ count_tokens_with_tokenizer (some cl100kEncodeModel) [] := by
  constructor
  · rfl
  · decide

/-- C10 amended: every fallback path of the token estimators is strictly
positive — count_tokens with no tokenizer, count_tokens when the encoder
raises, and SmartRateLimiter.estimate_tokens unconditionally, each compute
max(1, len(text) // 4), so they return at least 1 and estimate the empty
string at exactly 1.  But when a tokenizer is available and encoding
succeeds, count_tokens returns the raw token count, which is 0 whenever
the encoder yields no tokens — in particular on the empty string. -/
theorem c10_token_estimate_positive (s : List Char)
    (enc : List Char → Option (List Nat)) :
    1 ≤ count_tokens_with_tokenizer none s ∧
      (enc s = none → 1 ≤ count_tokens_with_tokenizer (some enc) s) ∧
      1 ≤ estimate_tokens s ∧
      count_tokens_with_tokenizer none [] = 1 ∧
      estimate_tokens ([] : List Char) = 1 ∧
      count_tokens_with_tokenizer none s = count_tokens s ∧
      (enc [] = some [] → count_tokens_with_tokenizer (some enc) [] = 0) := by
  refine ⟨le_max_left _ _, ?_, le_max_left _ _, rfl, rfl, rfl, ?_⟩
  · intro h
    unfold count_tokens_with_tokenizer
    dsimp only
    rw [h]
    exact le_max_left _ _
  · intro h
    unfold count_tokens_with_tokenizer
    dsimp only
    rw [h]
    rfl

/-- Witness for c10_token_estimate_positive at a one-character string and
the cl100k stand-in encoder. -/
theorem c10_token_estimate_positive_witness :
    1 ≤ count_tokens_with_tokenizer none ['a'] ∧
      (cl100kEncodeModel ['a'] = none →
        1 ≤ count_tokens_with_tokenizer (some cl100kEncodeModel) ['a']) ∧
      1 ≤ estimate_tokens ['a'] ∧
      count_tokens_with_tokenizer none [] = 1 ∧
      estimate_tokens ([] : List Char) = 1 ∧
      count_tokens_with_tokenizer none ['a'] = count_tokens ['a'] ∧
      (cl100kEncodeModel [] = some [] →
        count_tokens_with_tokenizer (some cl100kEncodeModel) [] = 0) :=
  c10_token_estimate_positive ['a'] cl100kEncodeModel

/-
Claim theorems: the chunk-limit reduction ladder (C3).
-/

theorem iterReduce_spec (d : Nat) (n : Nat) :
    iterReduce d n =
      { limit := if n = 0 then d else chunkReductionSteps.getD (min n 5 - 1) 0,
        stepIdx := min n 5 } := by
  induction n with
  | zero => simp [iterReduce, initGenState]
  | succ n ih =>
    rw [iterReduce, ih, reduce_chunk_limit]
    by_cases h : n < 5
    · rw [if_pos (by simp [chunkReductionSteps]; omega)]
      have h0 : min n 5 = n := by omega
      have h1 : min (n + 1) 5 = n + 1 := by omega
      simp only [GenState.mk.injEq, h0, h1]
      constructor
      · rw [if_neg (by omega)]
        simp
      · trivial
    · rw [if_neg (by simp [chunkReductionSteps]; omega)]
      simp only [GenState.mk.injEq]
      constructor
      · rw [if_neg (by omega), if_neg (by omega)]
        have h1 : min n 5 = 5 := by omega
        have h2 : min (n + 1) 5 = 5 := by omega
        rw [h1, h2]
      · omega

/-- C3 is falsified at a configuration the code accepts: with a configured
chunk_limit of 5000 (TTSConfig.chunk_limit is arbitrary, e.g. via
CHUNK_LIMIT), the first reduce_chunk_limit call sets the budget to the
first ladder value 25000 — an increase, not a reduction. -/
theorem c3_reduce_can_increase_budget :
    (initGenState 5000).limit < ((reduce_chunk_limit (initGenState 5000)).1).limit := by
  decide

/-- C3 amended: provided the configured default is at least the first
ladder value 25000 (as the shipped default 30000 is), the budget is
monotonically non-increasing under reduce_chunk_limit; each call either
leaves the state unchanged returning False — exactly when the five-step
ladder is exhausted — or moves the budget to the next ladder value
returning True; and the budget is always the configured default or one of
the ladder values. -/
theorem c3_budget_ladder_invariant (d n : Nat) (hd : 25000 ≤ d) :
    ((iterReduce d n).limit = d ∨ (iterReduce d n).limit ∈ chunkReductionSteps) ∧
      (iterReduce d (n + 1)).limit ≤ (iterReduce d n).limit ∧
      ((reduce_chunk_limit (iterReduce d n)).2 = false ↔ 5 ≤ n) ∧
      ((reduce_chunk_limit (iterReduce d n)).2 = false →
        (reduce_chunk_limit (iterReduce d n)).1 = iterReduce d n) ∧
      (n < 5 →
        (reduce_chunk_limit (iterReduce d n)).1.limit
            = chunkReductionSteps.getD n 0 ∧
          (reduce_chunk_limit (iterReduce d n)).2 = true) := by
  rcases n with _ | _ | _ | _ | _ | m
  · refine ⟨Or.inl (by simp [iterReduce_spec]), ?_, ?_, ?_, ?_⟩ <;>
      simp [iterReduce_spec, reduce_chunk_limit, chunkReductionSteps] <;> omega
  · refine ⟨Or.inr (by simp [iterReduce_spec, chunkReductionSteps]), ?_, ?_, ?_, ?_⟩ <;>
      simp [iterReduce_spec, reduce_chunk_limit, chunkReductionSteps]
  · refine ⟨Or.inr (by simp [iterReduce_spec, chunkReductionSteps]), ?_, ?_, ?_, ?_⟩ <;>
      simp [iterReduce_spec, reduce_chunk_limit, chunkReductionSteps]
  · refine ⟨Or.inr (by simp [iterReduce_spec, chunkReductionSteps]), ?_, ?_, ?_, ?_⟩ <;>
      simp [iterReduce_spec, reduce_chunk_limit, chunkReductionSteps]
  · refine ⟨Or.inr (by simp [iterReduce_spec, chunkReductionSteps]), ?_, ?_, ?_, ?_⟩ <;>
      simp [iterReduce_spec, reduce_chunk_limit, chunkReductionSteps]
  · have h5 : min (m + 5) 5 = 5 := by omega
    have h6 : min (m + 5 + 1) 5 = 5 := by omega
    refine ⟨Or.inr ?_, ?_, ?_, ?_, ?_⟩ <;>
      simp [iterReduce_spec, reduce_chunk_limit, chunkReductionSteps, h5, h6] <;>
      omega

/-- Witness for c3_budget_ladder_invariant at the shipped default 30000
after two reductions. -/
theorem c3_budget_ladder_invariant_witness :
    ((iterReduce 30000 2).limit = 30000 ∨
        (iterReduce 30000 2).limit ∈ chunkReductionSteps) ∧
      (iterReduce 30000 3).limit ≤ (iterReduce 30000 2).limit ∧
      ((reduce_chunk_limit (iterReduce 30000 2)).2 = false ↔ 5 ≤ 2) ∧
      ((reduce_chunk_limit (iterReduce 30000 2)).2 = false →
        (reduce_chunk_limit (iterReduce 30000 2)).1 = iterReduce 30000 2) ∧
      (2 < 5 →
        (reduce_chunk_limit (iterReduce 30000 2)).1.limit
            = chunkReductionSteps.getD 2 0 ∧
          (reduce_chunk_limit (iterReduce 30000 2)).2 = true) :=
  c3_budget_ladder_invariant 30000 2 (by omega)

/-
Claim theorems: chapter-level server-error recovery (C4).
-/

theorem take_getD_drop {α : Type} (d : α) :
    ∀ (l : List α) (i : Nat), i < l.length →
      l.take i ++ [l.getD i d] ++ l.drop (i + 1) = l := by
  intro l
  induction l with
  | nil => intro i h; simp at h
  | cons x xs ih =>
    intro i h
    cases i with
    | zero => simp
    | succ j =>
      have hj : j < xs.length := by simpa using h
      have := ih j hj
      simp only [List.take_succ_cons, List.drop_succ_cons, List.getD_cons_succ,
        List.cons_append]
      rw [this]

/-- The preservation fact behind C2, shared with C4: chunking any text at
any budget keeps exactly the non-whitespace characters, in order. -/
theorem chunk_preserves_nws (t : List Char) (b : Nat) :
    nwsJoin (chunk_text_smartly t b) = nws t :=
  nwsJoin_chunkAux b (t.length + 1) t

/-- C4: when the chapter loop of generate_chapter_audio catches a
500/502/timeout failure on chunk i after retries are exhausted, and a
reduction step remains, the shared budget moves exactly one ladder step,
the failing chunk is re-chunked at the new (safe-mode-capped) limit, the
sub-chunks replace it in place, processing resumes at the first sub-chunk
(same index), and the chapter text is preserved in order; with the ladder
exhausted the error is re-raised (result none). -/
theorem c4_server_error_rechunk_in_place (safeMode : Bool) (safeLimit : Nat)
    (s : GenState) (chunks : List (List Char)) (i : Nat) (hi : i < chunks.length) :
    (s.stepIdx < chunkReductionSteps.length →
      handleServerError safeMode safeLimit s chunks i
          = some ({ limit := chunkReductionSteps.getD s.stepIdx 0,
                    stepIdx := s.stepIdx + 1 },
              chunks.take i
                ++ chunk_text_smartly (chunks.getD i [])
                    (if safeMode then
                      min (chunkReductionSteps.getD s.stepIdx 0) safeLimit
                     else chunkReductionSteps.getD s.stepIdx 0)
                ++ chunks.drop (i + 1), i) ∧
        nwsJoin (chunks.take i
            ++ chunk_text_smartly (chunks.getD i [])
                (if safeMode then
                  min (chunkReductionSteps.getD s.stepIdx 0) safeLimit
                 else chunkReductionSteps.getD s.stepIdx 0)
            ++ chunks.drop (i + 1)) = nwsJoin chunks) ∧
      (chunkReductionSteps.length ≤ s.stepIdx →
        handleServerError safeMode safeLimit s chunks i = none) := by
  constructor
  · intro hstep
    have hred : reduce_chunk_limit s
        = ({ limit := chunkReductionSteps.getD s.stepIdx 0,
             stepIdx := s.stepIdx + 1 }, true) := by
      unfold reduce_chunk_limit
      rw [if_pos hstep]
    constructor
    · unfold handleServerError
      rw [hred]
    · have hkeep := chunk_preserves_nws (chunks.getD i [])
        (if safeMode then min (chunkReductionSteps.getD s.stepIdx 0) safeLimit
         else chunkReductionSteps.getD s.stepIdx 0)
      calc nwsJoin (chunks.take i
            ++ chunk_text_smartly (chunks.getD i [])
                (if safeMode then
                  min (chunkReductionSteps.getD s.stepIdx 0) safeLimit
                 else chunkReductionSteps.getD s.stepIdx 0)
            ++ chunks.drop (i + 1))
          = nwsJoin (chunks.take i) ++ nws (chunks.getD i [])
              ++ nwsJoin (chunks.drop (i + 1)) := by
            rw [nwsJoin_append, nwsJoin_append, hkeep]
        _ = nwsJoin (chunks.take i ++ [chunks.getD i []] ++ chunks.drop (i + 1)) := by
            rw [nwsJoin_append, nwsJoin_append, nwsJoin_singleton]
        _ = nwsJoin chunks := by rw [take_getD_drop [] chunks i hi]
  · intro hstep
    have hred : reduce_chunk_limit s = (s, false) := by
      unfold reduce_chunk_limit
      rw [if_neg (by omega)]
    unfold handleServerError
    rw [hred]

/-- Witness for c4_server_error_rechunk_in_place: two chunks, failure on
the first, fresh ladder. -/
theorem c4_server_error_rechunk_in_place_witness :
    ((initGenState 30000).stepIdx < chunkReductionSteps.length →
      handleServerError false 1800 (initGenState 30000)
          ["ab".data, "cd".data] 0
          = some ({ limit := chunkReductionSteps.getD (initGenState 30000).stepIdx 0,
                    stepIdx := (initGenState 30000).stepIdx + 1 },
              (["ab".data, "cd".data] : List (List Char)).take 0
                ++ chunk_text_smartly ((["ab".data, "cd".data] : List (List Char)).getD 0 [])
                    (if false then
                      min (chunkReductionSteps.getD (initGenState 30000).stepIdx 0) 1800
                     else chunkReductionSteps.getD (initGenState 30000).stepIdx 0)
                ++ (["ab".data, "cd".data] : List (List Char)).drop (0 + 1), 0) ∧
        nwsJoin ((["ab".data, "cd".data] : List (List Char)).take 0
            ++ chunk_text_smartly ((["ab".data, "cd".data] : List (List Char)).getD 0 [])
                (if false then
                  min (chunkReductionSteps.getD (initGenState 30000).stepIdx 0) 1800
                 else chunkReductionSteps.getD (initGenState 30000).stepIdx 0)
            ++ (["ab".data, "cd".data] : List (List Char)).drop (0 + 1))
          = nwsJoin ["ab".data, "cd".data]) ∧
      (chunkReductionSteps.length ≤ (initGenState 30000).stepIdx →
        handleServerError false 1800 (initGenState 30000)
          ["ab".data, "cd".data] 0 = none) :=
  c4_server_error_rechunk_in_place false 1800 (initGenState 30000)
    ["ab".data, "cd".data] 0 (by decide)

/-
Claim theorems: 503 is never retried (C5).
-/

theorem quotaGo_503 (outcomes : Nat → Outcome) (maxRetries k : Nat)
    (hk : k ≤ maxRetries) (h503 : outcomes k = .http 503)
    (hprev : ∀ j, j < k → outcomes j = .http 500 ∨ outcomes j = .network) :
    ∀ (d a : Nat), a + d = k →
      quotaGo outcomes maxRetries a (maxRetries + 1 - a)
        = (.serviceUnavailable, d + 1) := by
  intro d
  induction d with
  | zero =>
    intro a ha
    have hak : a = k := by omega
    subst hak
    have hfuel : maxRetries + 1 - a = (maxRetries - a) + 1 := by omega
    rw [hfuel, quotaGo, h503]
  | succ d ih =>
    intro a ha
    have halt : a < k := by omega
    have hamax : a < maxRetries := by omega
    have hfuel : maxRetries + 1 - a = (maxRetries - a) + 1 := by omega
    have hnext : maxRetries - a = maxRetries + 1 - (a + 1) := by omega
    have hrec := ih (a + 1) (by omega)
    rcases hprev a halt with h | h
    · rw [hfuel, quotaGo, h]
      simp only [if_pos hamax]
      rw [hnext, hrec]
    · rw [hfuel, quotaGo, h]
      simp only [if_pos hamax]
      rw [hnext, hrec]

theorem retryGo_503 (outcomes : Nat → Outcome) (maxRetries k : Nat)
    (hk : k ≤ maxRetries) (h503 : outcomes k = .http 503)
    (hprev : ∀ j, j < k → outcomes j = .http 500 ∨ outcomes j = .network) :
    ∀ (d a : Nat), a + d = k →
      retryGo outcomes maxRetries a (maxRetries + 1 - a)
        = (.serviceUnavailable, d + 1) := by
  intro d
  induction d with
  | zero =>
    intro a ha
    have hak : a = k := by omega
    subst hak
    have hfuel : maxRetries + 1 - a = (maxRetries - a) + 1 := by omega
    rw [hfuel, retryGo, h503]
  | succ d ih =>
    intro a ha
    have halt : a < k := by omega
    have hamax : a < maxRetries := by omega
    have hfuel : maxRetries + 1 - a = (maxRetries - a) + 1 := by omega
    have hnext : maxRetries - a = maxRetries + 1 - (a + 1) := by omega
    have hrec := ih (a + 1) (by omega)
    rcases hprev a halt with h | h
    · rw [hfuel, retryGo, h]
      simp only [if_pos hamax]
      rw [hnext, hrec]
    · rw [hfuel, retryGo, h]
      simp only [if_pos hamax]
      rw [hnext, hrec]

/-- C5: in both retry handlers, a 503 provider response raises the distinct
ServiceUnavailableError immediately: if the first k attempts fail with
retryable server or network errors and attempt k returns 503, the loop
terminates with serviceUnavailable after exactly k + 1 provider calls —
zero retries follow the 503 no matter how many retries remain. -/
theorem c5_service_unavailable_never_retried (outcomes : Nat → Outcome)
    (maxRetries k : Nat) (hk : k ≤ maxRetries) (h503 : outcomes k = .http 503)
    (hprev : ∀ j, j < k → outcomes j = .http 500 ∨ outcomes j = .network) :
    call_with_quota_awareness outcomes maxRetries = (.serviceUnavailable, k + 1) ∧
      call_with_retry outcomes maxRetries = (.serviceUnavailable, k + 1) := by
  constructor
  · have := quotaGo_503 outcomes maxRetries k hk h503 hprev k 0 (by omega)
    unfold call_with_quota_awareness
    simpa using this
  · have := retryGo_503 outcomes maxRetries k hk h503 hprev k 0 (by omega)
    unfold call_with_retry
    simpa using this

/-- Witness for c5_service_unavailable_never_retried: one 500 failure, then
a 503, with two retries still in budget. -/
theorem c5_service_unavailable_never_retried_witness :
    call_with_quota_awareness
        (fun j => if j = 0 then .http 500 else .http 503) 3
        = (.serviceUnavailable, 1 + 1) ∧
      call_with_retry (fun j => if j = 0 then .http 500 else .http 503) 3
        = (.serviceUnavailable, 1 + 1) :=
  c5_service_unavailable_never_retried
    (fun j => if j = 0 then .http 500 else .http 503) 3 1 (by omega) rfl
    (by
      intro j hj
      interval_cases j
      exact Or.inl rfl)

/-
Claim theorems: quality-detector failure handling (C6) and the corruption
decision rule (C7).
-/

/-- C6 is falsified at the pipeline call site: when the corruption check
itself raises, generate_chunk_audio logs the error and proceeds with the
generated audio (lines 253-255) — it accepts instead of regenerating, so
the call site is fail-open, not fail-safe. -/
theorem c6_call_site_fail_open_counterexample :
    qualityCheckDecision (Except.error "analysis crashed") 0 3
        = ChunkDecision.accept ∧
      ChunkDecision.accept ≠ ChunkDecision.regenerate := by
  constructor
  · rfl
  · decide

/-- C6 amended: detect_corruption is fail-safe — any internal analysis
error yields a report with is_corrupted = True — but the generator call
site is fail-open: a quality check that raises is logged and the generated
audio is accepted, whatever the remaining per-chunk retry budget. -/
theorem c6_fail_safe_inside_fail_open_at_call_site (cfg : DetectorConfig)
    (e : String) (r a : Nat) :
    (detect_corruption cfg (Except.error e)).isCorrupted = true ∧
      (detect_corruption cfg (Except.error e)).corruptionTypes
          = [CorruptionType.digitalArtifacts] ∧
      qualityCheckDecision (Except.error e) r a = ChunkDecision.accept := by
  exact ⟨rfl, rfl, rfl⟩

theorem addIf_len (b : Prop) [Decidable b] (t : CorruptionType) (score : ℚ)
    (acc : List CorruptionType × List ℚ) (h : acc.1.length = acc.2.length) :
    (addIf b t score acc).1.length = (addIf b t score acc).2.length := by
  unfold addIf
  split_ifs <;> simp [h]

theorem analyze_types_scores_length (cfg : DetectorConfig) (inp : AnalysisInputs) :
    (analyzeCorruptionPatterns cfg inp).1.length
      = (analyzeCorruptionPatterns cfg inp).2.length := by
  simp only [analyzeCorruptionPatterns]
  iterate 13 apply addIf_len
  rfl

theorem analyze_types_nil_iff (cfg : DetectorConfig) (inp : AnalysisInputs) :
    (analyzeCorruptionPatterns cfg inp).1 = []
      ↔ (analyzeCorruptionPatterns cfg inp).2 = [] := by
  have h := analyze_types_scores_length cfg inp
  constructor
  · intro h1
    rw [h1] at h
    exact List.length_eq_zero.mp h.symm
  · intro h2
    rw [h2] at h
    exact List.length_eq_zero.mp h

/-- Metrics for the C7 boundary counterexample: clean on every rule except
rule 5 (high-frequency energy 0.4 > 0.3), which fires alone with
confidence 0.7 — exactly the default threshold. -/
def c7Metrics : QualityMetrics :=
  { duration := 5, silencePercentage := 10, highFreqEnergy := 2 / 5,
    zeroCrossingRate := 1 / 10, clippingPercentage := 0, snrEstimate := 20,
    spectralFlatness := 1 / 10, harmonicNoiseRatio := 10,
    peakAmplitude := 1 / 2, dynamicRange := 10 }

/-- Analysis inputs for the C7 boundary counterexample. -/
def c7Input : AnalysisInputs :=
  { metrics := c7Metrics, silenceSegments := [], volumeSpikes := [],
    speedDistortion := (false, 0), reverseSpeech := (false, 0),
    gibberish := (false, 0) }

/-- C7 is falsified at the threshold boundary: with only the static-noise
rule firing at confidence 0.7 and the default threshold 0.7, the code
reports is_corrupted = True (line 895 uses >=), while the claim's strict
"exceeds" would require False. -/
theorem c7_threshold_boundary_counterexample :
    (detect_corruption defaultDetectorConfig (Except.ok c7Input)).isCorrupted
        = true ∧
      (analyzeCorruptionPatterns defaultDetectorConfig c7Input).1
        = [CorruptionType.staticNoise] ∧
      ¬(defaultDetectorConfig.corruptionConfidenceThreshold <
        overallConfidence
          (analyzeCorruptionPatterns defaultDetectorConfig c7Input).2) := by
  have hA : analyzeCorruptionPatterns defaultDetectorConfig c7Input
      = ([CorruptionType.staticNoise], [7 / 10]) := by
    norm_num [analyzeCorruptionPatterns, addIf, c7Input, c7Metrics,
      defaultDetectorConfig]
  refine ⟨?_, ?_, ?_⟩
  · simp only [detect_corruption, hA]
    norm_num [overallConfidence, defaultDetectorConfig]
  · rw [hA]
  · rw [hA]
    norm_num [overallConfidence, defaultDetectorConfig]

/-- C7 amended: is_corrupted is true iff at least one corruption rule fired
and the mean of the firing rules' confidence scores is at least (not
strictly above) the threshold; when no rule fires the overall confidence is
0 and is_corrupted is false. -/
theorem c7_is_corrupted_iff (cfg : DetectorConfig) (inp : AnalysisInputs) :
    ((detect_corruption cfg (Except.ok inp)).isCorrupted = true ↔
        ((analyzeCorruptionPatterns cfg inp).1 ≠ [] ∧
          cfg.corruptionConfidenceThreshold ≤
            (analyzeCorruptionPatterns cfg inp).2.sum /
              (analyzeCorruptionPatterns cfg inp).2.length)) ∧
      ((analyzeCorruptionPatterns cfg inp).1 = [] →
        overallConfidence (analyzeCorruptionPatterns cfg inp).2 = 0 ∧
          (detect_corruption cfg (Except.ok inp)).isCorrupted = false) := by
  constructor
  · constructor
    · intro h
      have h2 := of_decide_eq_true h
      refine ⟨h2.1, ?_⟩
      have hnn : (analyzeCorruptionPatterns cfg inp).2 ≠ [] := by
        intro hnil
        exact h2.1 ((analyze_types_nil_iff cfg inp).mpr hnil)
      have := h2.2
      unfold overallConfidence at this
      rwa [if_neg hnn] at this
    · intro h
      have hnn : (analyzeCorruptionPatterns cfg inp).2 ≠ [] := by
        intro hnil
        exact h.1 ((analyze_types_nil_iff cfg inp).mpr hnil)
      apply decide_eq_true
      refine ⟨h.1, ?_⟩
      unfold overallConfidence
      rw [if_neg hnn]
      exact h.2
  · intro h
    have hnil : (analyzeCorruptionPatterns cfg inp).2 = [] :=
      (analyze_types_nil_iff cfg inp).mp h
    constructor
    · unfold overallConfidence
      rw [if_pos hnil]
    · simp only [detect_corruption]
      rw [decide_eq_false_iff_not]
      intro hcon
      exact hcon.1 h

/-
Claim theorems: SmartRateLimiter window accounting (C8) and per-key
admission (C9).
-/

theorem record_request_window (now : ℚ) (k : Nat) (L : SmartRateLimiter)
    (w : RateLimit) (hw : L.rateLimits geminiKey = some w) :
    (record_request now geminiKey k L).rateLimits geminiKey
      = some { w with currentRequests := w.currentRequests + 1,
                      currentTokens := w.currentTokens + k } := by
  unfold record_request
  rw [hw]
  simp

theorem recordAll_window (k : Nat) :
    ∀ (times : List ℚ) (L : SmartRateLimiter) (w : RateLimit),
      L.rateLimits geminiKey = some w →
      (recordAll geminiKey k times L).rateLimits geminiKey
        = some { w with currentRequests := w.currentRequests + times.length,
                        currentTokens := w.currentTokens + times.length * k } := by
  intro times
  induction times with
  | nil =>
    intro L w hw
    simpa [recordAll] using hw
  | cons t ts ih =>
    intro L w hw
    have hstep := record_request_window t k L w hw
    have := ih (record_request t geminiKey k L) _ hstep
    unfold recordAll at this ⊢
    rw [List.foldl_cons]
    rw [this]
    have h1 : w.currentRequests + 1 + ts.length
        = w.currentRequests + (ts.length + 1) := by omega
    have h2 : w.currentTokens + k + ts.length * k
        = w.currentTokens + (ts.length + 1) * k := by
      rw [Nat.succ_mul]
      omega
    simp [h1, h2]

/-- C8: starting from the freshly constructed limiter, recording n requests
of k tokens each for the configured Gemini key leaves the window counters
at used_requests = n and used_tokens = n * k; inside the still-unexpired
one-minute window (now - window_start < 60), once n reaches the 15
requests-per-minute capacity a subsequent can_make_request returns
not-ready with a strictly positive wait; and reset_window_if_needed leaves
any window untouched before 60 seconds have elapsed. -/
theorem c8_rate_limiter_counters_and_rejection (t0 now : ℚ) (times : List ℚ)
    (k est : Nat) (hn : 15 ≤ times.length) (hwin : now - t0 < 60) :
    ((recordAll geminiKey k times (initLimiter t0)).rateLimits geminiKey).map
        RateLimit.currentRequests = some times.length ∧
      ((recordAll geminiKey k times (initLimiter t0)).rateLimits geminiKey).map
        RateLimit.currentTokens = some (times.length * k) ∧
      (can_make_request now geminiKey est
          (recordAll geminiKey k times (initLimiter t0))).2.1 = false ∧
      0 < (can_make_request now geminiKey est
          (recordAll geminiKey k times (initLimiter t0))).2.2 ∧
      (∀ (L : SmartRateLimiter) (w : RateLimit),
        L.rateLimits geminiKey = some w → now - w.windowStart < 60 →
          reset_window_if_needed now geminiKey L = L) := by
  have hw0 : (initLimiter t0).rateLimits geminiKey
      = some { requestsPerMinute := 15, tokensPerMinute := 10000,
               currentRequests := 0, currentTokens := 0, windowStart := t0 } := by
    simp [initLimiter]
  have hW := recordAll_window k times (initLimiter t0) _ hw0
  simp only [Nat.zero_add] at hW
  have hreset : ∀ (L : SmartRateLimiter) (w : RateLimit),
      L.rateLimits geminiKey = some w → now - w.windowStart < 60 →
        reset_window_if_needed now geminiKey L = L := by
    intro L w hw hlt
    unfold reset_window_if_needed
    rw [hw]
    dsimp only
    rw [if_neg (by linarith)]
  have hcm : (can_make_request now geminiKey est
        (recordAll geminiKey k times (initLimiter t0))).2.1 = false ∧
      0 < (can_make_request now geminiKey est
        (recordAll geminiKey k times (initLimiter t0))).2.2 := by
    simp only [can_make_request]
    rw [hreset _ _ hW (by simpa using hwin), hW]
    dsimp only
    by_cases hint :
        now - (recordAll geminiKey k times (initLimiter t0)).lastRequestTime
          < (recordAll geminiKey k times (initLimiter t0)).minRequestInterval
    · rw [if_pos hint]
      exact ⟨rfl, by dsimp only; linarith⟩
    · rw [if_neg hint, if_pos (Or.inl hn)]
      refine ⟨rfl, ?_⟩
      dsimp only
      have h60 : (0 : ℚ) < 60 - (now - t0) := by linarith
      simp only [lt_max_iff]
      exact Or.inr h60
  exact ⟨by rw [hW]; rfl, by rw [hW]; rfl, hcm.1, hcm.2, hreset⟩

/-- Witness for c8_rate_limiter_counters_and_rejection: 15 requests of 10
tokens recorded in a window opened at time 0, admission checked at time
30. -/
theorem c8_rate_limiter_counters_and_rejection_witness :
    ((recordAll geminiKey 10 (List.replicate 15 (1 : ℚ))
          (initLimiter 0)).rateLimits geminiKey).map
        RateLimit.currentRequests = some (List.replicate 15 (1 : ℚ)).length ∧
      ((recordAll geminiKey 10 (List.replicate 15 (1 : ℚ))
          (initLimiter 0)).rateLimits geminiKey).map
        RateLimit.currentTokens = some ((List.replicate 15 (1 : ℚ)).length * 10) ∧
      (can_make_request 30 geminiKey 1
          (recordAll geminiKey 10 (List.replicate 15 (1 : ℚ))
            (initLimiter 0))).2.1 = false ∧
      0 < (can_make_request 30 geminiKey 1
          (recordAll geminiKey 10 (List.replicate 15 (1 : ℚ))
            (initLimiter 0))).2.2 ∧
      (∀ (L : SmartRateLimiter) (w : RateLimit),
        L.rateLimits geminiKey = some w → (30 : ℚ) - w.windowStart < 60 →
          reset_window_if_needed 30 geminiKey L = L) :=
  c8_rate_limiter_counters_and_rejection 0 30 (List.replicate 15 (1 : ℚ)) 10 1
    (by simp) (by norm_num)

/-- C9 is falsified for unseen keys: with the last request made at the very
same instant (so the 4-second minimum interval is violated), an admission
check for a key with no window returns Ready with zero wait — it is
admitted unconditionally — while the same check for the configured key is
refused.  No window is ever created lazily: rate_limits only ever holds the
hard-coded Gemini entry. -/
theorem c9_unknown_key_admitted_counterexample :
    (can_make_request 100 "mystery-model" 5
        { initLimiter 0 with lastRequestTime := 100 }).2 = (true, 0) ∧
      (can_make_request 100 geminiKey 5
        { initLimiter 0 with lastRequestTime := 100 }).2.1 = false := by
  have hnone : ({ initLimiter 0 with lastRequestTime := 100 } :
      SmartRateLimiter).rateLimits "mystery-model" = none := by
    simp only [initLimiter]
    rw [if_neg (by decide)]
  have hsome : ({ initLimiter 0 with lastRequestTime := 100 } :
      SmartRateLimiter).rateLimits geminiKey
      = some { requestsPerMinute := 15, tokensPerMinute := 10000,
               currentRequests := 0, currentTokens := 0, windowStart := 0 } := by
    simp [initLimiter]
  constructor
  · have hreset : reset_window_if_needed 100 "mystery-model"
        { initLimiter 0 with lastRequestTime := 100 }
        = { initLimiter 0 with lastRequestTime := 100 } := by
      unfold reset_window_if_needed
      rw [hnone]
    simp only [can_make_request]
    rw [hreset, hnone]
  · simp only [can_make_request]
    unfold reset_window_if_needed
    rw [hsome]
    dsimp only
    rw [if_pos (by norm_num)]
    dsimp only
    rw [if_pos rfl]
    dsimp only
    rw [if_pos (by norm_num [initLimiter])]

/-- C9 amended: the limiter keeps a fixed table holding only the hard-coded
Gemini window — nothing is created lazily.  For any key without a window,
can_make_request admits unconditionally (Ready, zero wait, no interval or
budget check) and record_request is a no-op; for the configured key both
the minimum inter-request interval and the per-minute request budget are
enforced. -/
theorem c9_admission_per_key (t0 now : ℚ) (est : Nat) (m : String)
    (L : SmartRateLimiter) (w : RateLimit) (hm : m ≠ geminiKey)
    (hL : L.rateLimits m = none) (hw : L.rateLimits geminiKey = some w) :
    (initLimiter t0).rateLimits m = none ∧
      (record_request now m est L).rateLimits m = none ∧
      can_make_request now m est L = (L, true, 0) ∧
      (now - w.windowStart < 60 →
        now - L.lastRequestTime < L.minRequestInterval →
          (can_make_request now geminiKey est L).2.1 = false) ∧
      (now - w.windowStart < 60 →
        ¬(now - L.lastRequestTime < L.minRequestInterval) →
          w.requestsPerMinute ≤ w.currentRequests →
          (can_make_request now geminiKey est L).2.1 = false) := by
  have hreset : reset_window_if_needed now m L = L := by
    unfold reset_window_if_needed
    rw [hL]
  have hresetG : now - w.windowStart < 60 →
      reset_window_if_needed now geminiKey L = L := by
    intro h60
    unfold reset_window_if_needed
    rw [hw]
    dsimp only
    rw [if_neg (by linarith)]
  refine ⟨?_, ?_, ?_, ?_, ?_⟩
  · simp only [initLimiter]
    rw [if_neg hm]
  · unfold record_request
    rw [hL]
    exact hL
  · simp only [can_make_request]
    rw [hreset, hL]
  · intro h60 hint
    simp only [can_make_request]
    rw [hresetG h60, hw]
    dsimp only
    rw [if_pos hint]
  · intro h60 hint hq
    simp only [can_make_request]
    rw [hresetG h60, hw]
    dsimp only
    rw [if_neg hint, if_pos (Or.inl hq)]

/-- Witness for c9_admission_per_key at the freshly constructed limiter and
an unconfigured key. -/
theorem c9_admission_per_key_witness :
    (initLimiter 0).rateLimits "other-model" = none ∧
      (record_request 0 "other-model" 1 (initLimiter 0)).rateLimits
        "other-model" = none ∧
      can_make_request 0 "other-model" 1 (initLimiter 0)
        = (initLimiter 0, true, 0) ∧
      ((0 : ℚ) - (0 : ℚ) < 60 →
        (0 : ℚ) - (initLimiter 0).lastRequestTime
            < (initLimiter 0).minRequestInterval →
          (can_make_request 0 geminiKey 1 (initLimiter 0)).2.1 = false) ∧
      ((0 : ℚ) - (0 : ℚ) < 60 →
        ¬((0 : ℚ) - (initLimiter 0).lastRequestTime
            < (initLimiter 0).minRequestInterval) →
          (15 : Nat) ≤ 0 →
          (can_make_request 0 geminiKey 1 (initLimiter 0)).2.1 = false) :=
  c9_admission_per_key 0 0 1 "other-model" (initLimiter 0)
    { requestsPerMinute := 15, tokensPerMinute := 10000, currentRequests := 0,
      currentTokens := 0, windowStart := 0 }
    (by decide) (by simp only [initLimiter]; rw [if_neg (by decide)])
    (by simp [initLimiter])
